import Mathlib

/-!
Verification of the exercise-generation and session-scoring core of the
arithmetic drill tool (`exercise.py`).

Randomness is made explicit: every call to Python's `randint` is modelled by
`randint a b s`, where the extra seed `s : Nat` selects which element of
`[a, b]` the generator drew (every element is reachable for some seed, and no
element outside `[a, b]` is).  A stream `seeds : Nat → Nat` feeds the
successive draws of the rejection loop in `gen_math_int`, and a fuel argument
bounds how many draws we observe; `GenResult.diverge` means the loop was still
running after `fuel` draws.  `random.choice` over the six phrasings of a
`OneXTwoExercise` is modelled by an explicit index `k : Fin 6`.

Strings are modelled at the `List Char` level where their structure matters
(parsing with Python's `int`, splitting on `","` and `"?"`, decimal
rendering); ASCII digits, signs and whitespace are covered.
-/

/-! ### Decimal rendering (Python `str`/f-string of an `int`) -/

/-- The character for a single decimal digit `k < 10`. -/
def digitChar (k : Nat) : Char := Char.ofNat (48 + k)

/-- Numeric value of an ASCII digit character. -/
def digitVal (c : Char) : Nat := c.toNat - 48

/-- Fuel-driven decimal rendering of a natural number, most significant digit
first; `fuel ≥ n + 1` is always enough. -/
def natCharsAux : Nat → Nat → List Char → List Char
  | 0, _, acc => acc
  | fuel + 1, n, acc =>
    if n / 10 = 0 then digitChar (n % 10) :: acc
    else natCharsAux fuel (n / 10) (digitChar (n % 10) :: acc)

/-- Decimal digit string of a natural number, as Python renders an `int`. -/
def natChars (n : Nat) : List Char := natCharsAux (n + 1) n []

/-- Decimal rendering of an integer, as Python renders an `int` (a leading
`-` for negative values). -/
def intChars (x : Int) : List Char :=
  if x < 0 then '-' :: natChars (-x).toNat else natChars x.toNat

/-- Decimal string of a natural number. -/
def natStr (n : Nat) : String := String.mk (natChars n)

/-- Decimal string of an integer. -/
def intStr (x : Int) : String := String.mk (intChars x)

/-- The ten ASCII digit characters. -/
def digitChars : List Char := ['0', '1', '2', '3', '4', '5', '6', '7', '8', '9']

/-! ### Parsing (Python's builtin `int(str)`) -/

/-- One step of decimal accumulation. -/
def digitStep (a : Nat) (c : Char) : Nat := a * 10 + digitVal c

/-- Consume the remaining characters of a decimal literal.  Python allows a
single `_` between two digits (`int("1_2") = 12`) but rejects leading,
trailing or doubled underscores. -/
def goDigits (a : Nat) : List Char → Option Nat
  | [] => some a
  | c :: cs =>
    if c = '_' then
      match cs with
      | c2 :: cs2 => if c2.isDigit then goDigits (digitStep a c2) cs2 else none
      | [] => none
    else if c.isDigit then goDigits (digitStep a c) cs
    else none

/-- Parse a non-empty unsigned decimal literal. -/
def parseDigits : List Char → Option Nat
  | [] => none
  | c :: cs => if c.isDigit then goDigits (digitVal c) cs else none

/-- Python's `str.strip()`: drop leading and trailing whitespace. -/
def pyStrip (cs : List Char) : List Char :=
  ((cs.dropWhile Char.isWhitespace).reverse.dropWhile Char.isWhitespace).reverse

/-- Python's `int(s)` on a character list: strip whitespace, then an optional
single sign followed by a decimal literal; `none` models a raised
`ValueError`. -/
def py_int_chars (cs : List Char) : Option Int :=
  let t := pyStrip cs
  if t.head? = some '+' then (parseDigits t.tail).map (fun n => Int.ofNat n)
  else if t.head? = some '-' then (parseDigits t.tail).map (fun n => -(Int.ofNat n))
  else (parseDigits t).map (fun n => Int.ofNat n)

/-- Python's `int(s)` on a string. -/
def py_int (s : String) : Option Int := py_int_chars s.toList

/-- Python's `str.split(sep)` for a one-character separator: every occurrence
of the separator starts a new (possibly empty) part. -/
def pySplit (sep : Char) : List Char → List (List Char)
  | [] => [[]]
  | c :: cs =>
    if c = sep then [] :: pySplit sep cs
    else
      match pySplit sep cs with
      | [] => [[c]]
      | p :: ps => (c :: p) :: ps

/-- Apply `int` to every field of a split, failing when any field fails. -/
def py_int_list : List (List Char) → Option (List Int)
  | [] => some []
  | x :: xs =>
    match py_int_chars x, py_int_list xs with
    | some v, some vs => some (v :: vs)
    | _, _ => none

/-- Models `[int(x) for x in s.split(",")]`; `none` when any field fails to
parse (a raised `ValueError`). -/
def int_fields (s : String) : Option (List Int) :=
  py_int_list (pySplit ',' s.toList)

/-- Models `a, b = [int(x) for x in strrepr.split(",")]`; `none` when a field
fails to parse or the number of fields is not 2 (a raised error). -/
def parsePair (s : String) : Option (Int × Int) :=
  match int_fields s with
  | some [a, b] => some (a, b)
  | _ => none

/-! ### NumberGenerator: `gen_math_int` -/

/-- Models `random.randint a b`: the draw selected by seed `s`, always inside
`[a, b]` when `a ≤ b`, and every element of `[a, b]` is produced by some
seed. -/
def randint (a b : Int) (s : Nat) : Int := a + (s : Int) % (b - a + 1)

/-- `10 ^ k`, as built by the `l = 1; l *= 10` loop in `gen_math_int`. -/
def pow10 : Nat → Int
  | 0 => 1
  | k + 1 => pow10 k * 10

/-- The all-ones number with `k + 1` digits (11, 111, ...), as built by the
`all_ones = all_ones * 10 + 1` loop in `gen_math_int`. -/
def repunit : Nat → Int
  | 0 => 1
  | k + 1 => repunit k * 10 + 1

/-- The lower bound `l` of `gen_math_int` after the `min` clamp. -/
def clampedLow (digits : Nat) (mn : Option Int) : Int :=
  let l := pow10 (digits - 1)
  match mn with
  | some m => if m > l then m else l
  | none => l

/-- The upper bound `h` of `gen_math_int` after the `max` clamp; note the code
derives it from the already-clamped lower bound (`h = l * 10 - 1`). -/
def clampedHigh (digits : Nat) (mn mx : Option Int) : Int :=
  let h := clampedLow digits mn * 10 - 1
  match mx with
  | some m => if m < h then m else h
  | none => h

/-- The `_is_ok` acceptance test of `gen_math_int`: rejects multiples of 10
and the all-ones number. -/
def is_ok (allOnes r : Int) : Bool :=
  if r % 10 == 0 then false
  else if r == allOnes then false
  else true

/-- Outcome of `gen_math_int`: a value, a raised `ValueError` from `randint`
(empty range), or still looping after the observed number of draws. -/
inductive GenResult where
  | ok (n : Int)
  | valueError
  | diverge
  deriving DecidableEq

/-- The rejection-sampling loop of `gen_math_int`: draw until `_is_ok`
accepts, observing at most `fuel` draws, the `i`-th draw using seed
`seeds i`. -/
def genLoop (l h allOnes : Int) (seeds : Nat → Nat) : Nat → Nat → GenResult
  | 0, _ => GenResult.diverge
  | fuel + 1, i =>
    let n := randint l h (seeds i)
    if is_ok allOnes n then GenResult.ok n
    else genLoop l h allOnes seeds fuel (i + 1)

/-- Models `gen_math_int(digits, min, max)`: a 1-digit request returns
`randint(2, 9)` directly; otherwise the bounds are clamped and the rejection
loop runs over `[l, h]`. -/
def gen_math_int (digits : Nat) (mn mx : Option Int) (seeds : Nat → Nat) (fuel : Nat) :
    GenResult :=
  if digits = 1 then GenResult.ok (randint 2 9 (seeds 0))
  else
    let l := clampedLow digits mn
    let h := clampedHigh digits mn mx
    if l > h then GenResult.valueError
    else genLoop l h (repunit (digits - 1)) seeds fuel 0

/-! ### Exercises -/

/-- Verdict code `Exercise.Correct`. -/
def Exercise.Correct : Nat := 0

/-- Verdict code `Exercise.Invalid`. -/
def Exercise.Invalid : Nat := 1

/-- Verdict code `Exercise.Error`. -/
def Exercise.Error : Nat := 2

/-- `IntExercise.check`: parse the raw input with `int`; a parse failure is
`Invalid`, a parsed value differing from the stored answer is `Error`, a
match is `Correct`. -/
def IntExercise.check (answer : Int) (input : String) : Nat × Option String :=
  match py_int input with
  | some x =>
    if x ≠ answer then (Exercise.Error, some (intStr x ++ " is Incorrect!"))
    else (Exercise.Correct, none)
  | none => (Exercise.Invalid, some (input ++ " is NOT an integer!"))

/-- State of a `TwoXTwoExercise` (type tag `"Int2X2"`): the two operands. -/
structure TwoXTwoExercise where
  a : Int
  b : Int
  deriving DecidableEq

/-- The derived answer `a * b` set by `TwoXTwoExercise.__init__`. -/
def TwoXTwoExercise.answer (e : TwoXTwoExercise) : Int := e.a * e.b

/-- `TwoXTwoExercise.get_repr`: the canonical representation `f"{a},{b}"`. -/
def TwoXTwoExercise.get_repr (e : TwoXTwoExercise) : String :=
  String.mk (intChars e.a ++ ',' :: intChars e.b)

/-- Character list of `TwoXTwoExercise.__str__`: `f"{a} x {b} = ?"`. -/
def TwoXTwoExercise.displayChars (e : TwoXTwoExercise) : List Char :=
  intChars e.a ++ " x ".toList ++ intChars e.b ++ " = ?".toList

/-- `TwoXTwoExercise.__str__`. -/
def TwoXTwoExercise.str (e : TwoXTwoExercise) : String := String.mk e.displayChars

/-- Construction of a `TwoXTwoExercise` from a canonical representation
string; `none` models the error raised on a malformed string. -/
def TwoXTwoExercise.fromRepr (s : String) : Option TwoXTwoExercise :=
  (parsePair s).map (fun p => ⟨p.1, p.2⟩)

/-- The six phrasing/answer pairs `random.choice` picks from in
`OneXTwoExercise.__init__`. -/
def oneXTwoForms (a b c : Int) : List (List Char × Int) :=
  [(intChars a ++ " x ".toList ++ intChars b ++ " = ?".toList, c),
   (intChars b ++ " x ".toList ++ intChars a ++ " = ?".toList, c),
   (intChars a ++ " x ? = ".toList ++ intChars c, b),
   (intChars b ++ " x ? = ".toList ++ intChars c, a),
   ("? x ".toList ++ intChars a ++ " = ".toList ++ intChars c, b),
   ("? x ".toList ++ intChars b ++ " = ".toList ++ intChars c, a)]

/-- State of a `OneXTwoExercise` (type tag `"Int1X2"`): operands, product,
the drawn display string and its answer. -/
structure OneXTwoExercise where
  a : Int
  b : Int
  c : Int
  ex_str : List Char
  answer : Int
  deriving DecidableEq

/-- Build a `OneXTwoExercise` from operands `a`, `b`; the index `k` models
which of the six phrasings `random.choice` drew. -/
def OneXTwoExercise.make (a b : Int) (k : Fin 6) : OneXTwoExercise :=
  let c := a * b
  let p := (oneXTwoForms a b c).get ⟨k.val, k.isLt⟩
  ⟨a, b, c, p.1, p.2⟩

/-- `OneXTwoExercise.get_repr`: the canonical representation `f"{a},{b}"`,
independent of the drawn phrasing. -/
def OneXTwoExercise.get_repr (e : OneXTwoExercise) : String :=
  String.mk (intChars e.a ++ ',' :: intChars e.b)

/-- `OneXTwoExercise.__str__`. -/
def OneXTwoExercise.str (e : OneXTwoExercise) : String := String.mk e.ex_str

/-- Construction of a `OneXTwoExercise` from a canonical representation
string (the phrasing is drawn afresh); `none` models the error raised on a
malformed string. -/
def OneXTwoExercise.fromRepr (s : String) (k : Fin 6) : Option OneXTwoExercise :=
  (parsePair s).map (fun p => OneXTwoExercise.make p.1 p.2 k)

/-- A concrete exercise instance: one of the two registered variants. -/
inductive ExerciseInst where
  | twoXTwo (e : TwoXTwoExercise)
  | oneXTwo (e : OneXTwoExercise)
  deriving DecidableEq

/-- The stable `TYPE` tag of an instance. -/
def ExerciseInst.TYPE : ExerciseInst → String
  | .twoXTwo _ => "Int2X2"
  | .oneXTwo _ => "Int1X2"

/-- `get_repr` dispatched over the variants. -/
def ExerciseInst.get_repr : ExerciseInst → String
  | .twoXTwo e => e.get_repr
  | .oneXTwo e => e.get_repr

/-- `create_exercise(ty, strrepr)` against the registry as populated by the
two `register_exercise_type` calls at module load; `none` on an unregistered
tag models the failed assertion, and a `none` from `fromRepr` a raised
parse error. -/
def create_exercise (ty strrepr : String) (k : Fin 6) : Option ExerciseInst :=
  if ty = "Int2X2" then (TwoXTwoExercise.fromRepr strrepr).map ExerciseInst.twoXTwo
  else if ty = "Int1X2" then (OneXTwoExercise.fromRepr strrepr k).map ExerciseInst.oneXTwo
  else none

/-! ### Sessions -/

/-- One record appended by `finish_an_exercise` (the dict with keys
`type`, `repr`, `correct`, `ms_elapsed`, `date`). -/
structure SessionItem where
  type : String
  rep : String
  correct : Bool
  ms_elapsed : Int
  date : String
  deriving DecidableEq

/-- In-memory state of an `ExerciseSession`. -/
structure ExerciseSession where
  data_dir : String
  count : Nat
  correct : Nat
  incorrect : Nat
  items : List SessionItem
  total_time : Int
  date : String
  deriving DecidableEq

/-- `ExerciseSession.__init__`: all counters zero, no items, the session date
fixed at construction. -/
def ExerciseSession.init (data_dir date : String) : ExerciseSession :=
  { data_dir := data_dir, count := 0, correct := 0, incorrect := 0, items := [],
    total_time := 0, date := date }

/-- `ExerciseSession.finish_an_exercise`. -/
def finish_an_exercise (s : ExerciseSession) (ex : ExerciseInst) (correct : Bool)
    (ms_elapsed : Int) : ExerciseSession :=
  { s with
    count := s.count + 1,
    total_time := s.total_time + ms_elapsed,
    correct := if correct then s.correct + 1 else s.correct,
    incorrect := if correct then s.incorrect else s.incorrect + 1,
    items := s.items ++
      [{ type := ex.TYPE, rep := ex.get_repr, correct := correct,
         ms_elapsed := ms_elapsed, date := s.date }] }

/-- Run a session from a start state through a list of
`finish_an_exercise(ex, correct, ms_elapsed)` calls. -/
def run_session (s : ExerciseSession) (calls : List (ExerciseInst × Bool × Int)) :
    ExerciseSession :=
  calls.foldl (fun s c => finish_an_exercise s c.1 c.2.1 c.2.2) s

/-- The two durable logs written by `store_results`; `none` means the file
does not exist yet. -/
structure DataFiles where
  sessions : Option (List String)
  exercises : Option (List String)
  deriving DecidableEq

/-- The session-summary row written to `sessions.csv`. -/
def sessionRow (s : ExerciseSession) : String :=
  s.date ++ "," ++ intStr s.total_time ++ "," ++ natStr s.count ++ "," ++
    natStr s.correct ++ "," ++ natStr s.incorrect

/-- A per-item row written to `exercises.csv` (`correct` encoded as 1/0). -/
def itemRow (x : SessionItem) : String :=
  x.type ++ "," ++ x.rep ++ "," ++ (if x.correct then "1" else "0") ++ "," ++
    intStr x.ms_elapsed ++ "," ++ x.date

/-- Append rows to a log, writing the header first when the file is new. -/
def appendRows (file : Option (List String)) (header : String) (rows : List String) :
    Option (List String) :=
  match file with
  | none => some (header :: rows)
  | some lines => some (lines ++ rows)

/-- `ExerciseSession.store_results`: a no-op for an empty session, otherwise
append one summary row and one row per item to the two logs. -/
def store_results (s : ExerciseSession) (fs : DataFiles) : DataFiles :=
  if s.count = 0 then fs
  else
    { sessions := appendRows fs.sessions "date,duration_ms,count,correct,incorrect"
        [sessionRow s],
      exercises := appendRows fs.exercises "type,repr,correct,ms_elapsed,date"
        (s.items.map itemRow) }

/-! ### Generators -/

/-- Models `random.choice(xs)`: the element selected by seed `r`; `none` on an
empty list models the raised `IndexError`. -/
def pyChoice (xs : List (String × String)) (r : Nat) : Option (String × String) :=
  xs[r % xs.length]?

/-- State of a `ReprExerciseGen`: the history list, the mode flag and the
cursor for sequential replay. -/
structure ReprExerciseGen where
  reprs : List (String × String)
  is_random : Bool
  idx : Nat
  deriving DecidableEq

/-- `ReprExerciseGen.get_an_exercise`: random mode draws any entry; sequential
mode takes the entry at the cursor, advances it and wraps it to 0 past the
end.  `k` feeds the phrasing choice inside `create_exercise`, `r` the random
entry choice; `none` models a raised error (index out of range, unregistered
tag or malformed representation). -/
def ReprExerciseGen.get_an_exercise (g : ReprExerciseGen) (k : Fin 6) (r : Nat) :
    Option (ExerciseInst × ReprExerciseGen) :=
  if g.is_random then
    match pyChoice g.reprs r with
    | none => none
    | some p => (create_exercise p.1 p.2 k).map (fun e => (e, g))
  else
    match g.reprs[g.idx]? with
    | none => none
    | some p =>
      let idx2 := g.idx + 1
      let idx3 := if idx2 ≥ g.reprs.length then 0 else idx2
      (create_exercise p.1 p.2 k).map (fun e => (e, { g with idx := idx3 }))

/-- The result of the `i`-th `get_an_exercise` call (counting from 0),
threading the generator state; the streams `ks` and `rs` feed the random
choices of the successive calls. -/
def runGen (g : ReprExerciseGen) (ks : Nat → Fin 6) (rs : Nat → Nat) :
    Nat → Option (ExerciseInst × ReprExerciseGen)
  | 0 => g.get_an_exercise (ks 0) (rs 0)
  | i + 1 =>
    match runGen g ks rs i with
    | some (_, g2) => g2.get_an_exercise (ks (i + 1)) (rs (i + 1))
    | none => none

/-! ### Lemmas about decimal rendering and parsing -/

theorem natCharsAux_acc (fuel : Nat) : ∀ (n : Nat) (acc : List Char),
    natCharsAux fuel n acc = natCharsAux fuel n [] ++ acc := by
  induction fuel with
  | zero => intro n acc; simp [natCharsAux]
  | succ f ih =>
    intro n acc
    by_cases h : n / 10 = 0
    · simp [natCharsAux, h]
    · simp only [natCharsAux, if_neg h]
      rw [ih (n / 10) (digitChar (n % 10) :: acc), ih (n / 10) [digitChar (n % 10)]]
      simp

theorem natCharsAux_fuel (f1 : Nat) : ∀ (f2 n : Nat) (acc : List Char), n < f1 → n < f2 →
    natCharsAux f1 n acc = natCharsAux f2 n acc := by
  induction f1 with
  | zero => intro f2 n acc h1 _; omega
  | succ f ih =>
    intro f2 n acc h1 h2
    cases f2 with
    | zero => omega
    | succ g =>
      by_cases h : n / 10 = 0
      · simp [natCharsAux, h]
      · simp only [natCharsAux, if_neg h]
        exact ih g (n / 10) (digitChar (n % 10) :: acc) (by omega) (by omega)

theorem natChars_eq (n : Nat) :
    natChars n = if n < 10 then [digitChar n]
      else natChars (n / 10) ++ [digitChar (n % 10)] := by
  by_cases h : n < 10
  · have h0 : n / 10 = 0 := by omega
    simp [natChars, natCharsAux, h0, h, Nat.mod_eq_of_lt h]
  · have h0 : ¬ n / 10 = 0 := by omega
    rw [if_neg h]
    show natCharsAux (n + 1) n [] = _
    rw [show n + 1 = n + 1 from rfl]
    simp only [natCharsAux, if_neg h0]
    rw [natCharsAux_acc n (n / 10) [digitChar (n % 10)]]
    rw [natCharsAux_fuel n (n / 10 + 1) (n / 10) [] (by omega) (by omega)]
    rfl

theorem digitChar_mem (k : Nat) (hk : k < 10) : digitChar k ∈ digitChars := by
  interval_cases k <;> decide

theorem digitChar_val (k : Nat) (hk : k < 10) : digitVal (digitChar k) = k := by
  interval_cases k <;> decide

theorem digitChars_props : ∀ c ∈ digitChars,
    c.isDigit = true ∧ c ≠ ',' ∧ c ≠ '?' ∧ c ≠ '+' ∧ c ≠ '-' ∧
      c.isWhitespace = false := by decide

theorem natChars_mem (n : Nat) : ∀ c ∈ natChars n, c ∈ digitChars := by
  induction n using Nat.strong_induction_on with
  | _ n ih =>
    intro c hc
    rw [natChars_eq] at hc
    by_cases h : n < 10
    · rw [if_pos h] at hc
      simp at hc
      subst hc
      exact digitChar_mem n h
    · rw [if_neg h] at hc
      rcases List.mem_append.mp hc with hc | hc
      · exact ih (n / 10) (by omega) c hc
      · simp at hc
        subst hc
        exact digitChar_mem (n % 10) (by omega)

theorem natChars_ne_nil (n : Nat) : natChars n ≠ [] := by
  rw [natChars_eq]
  by_cases h : n < 10 <;> simp [h]

theorem natChars_val (n : Nat) : (natChars n).foldl digitStep 0 = n := by
  induction n using Nat.strong_induction_on with
  | _ n ih =>
    rw [natChars_eq]
    by_cases h : n < 10
    · simp [h, digitStep, digitChar_val n h]
    · rw [if_neg h, List.foldl_append]
      rw [ih (n / 10) (by omega)]
      simp only [List.foldl_cons, List.foldl_nil, digitStep]
      rw [digitChar_val (n % 10) (by omega)]
      omega

theorem goDigits_digits : ∀ (cs : List Char) (a : Nat), (∀ c ∈ cs, c.isDigit = true) →
    goDigits a cs = some (cs.foldl digitStep a) := by
  intro cs
  induction cs with
  | nil => intro a _; simp [goDigits]
  | cons c t ih =>
    intro a hall
    have hc : c.isDigit = true := hall c (List.mem_cons_self c t)
    have hne : ¬ c = '_' := by
      intro hE
      rw [hE] at hc
      exact absurd hc (by decide)
    rw [goDigits.eq_def]
    simp only [hne, hc, if_neg, if_pos, if_false, if_true]
    rw [ih (digitStep a c) (fun x hx => hall x (List.mem_cons_of_mem c hx))]
    simp

theorem parseDigits_digits (cs : List Char) (hne : cs ≠ [])
    (hall : ∀ c ∈ cs, c.isDigit = true) :
    parseDigits cs = some (cs.foldl digitStep 0) := by
  cases cs with
  | nil => exact absurd rfl hne
  | cons c t =>
    have hc : c.isDigit = true := hall c (List.mem_cons_self c t)
    simp only [parseDigits, hc, if_pos]
    rw [goDigits_digits t (digitVal c) (fun x hx => hall x (List.mem_cons_of_mem c hx))]
    simp [digitStep]

theorem parseDigits_natChars (n : Nat) : parseDigits (natChars n) = some n := by
  rw [parseDigits_digits (natChars n) (natChars_ne_nil n)
    (fun c hc => (digitChars_props c (natChars_mem n c hc)).1)]
  rw [natChars_val]

theorem dropWhile_of_none (p : Char → Bool) (cs : List Char)
    (h : ∀ c ∈ cs, p c = false) : cs.dropWhile p = cs := by
  cases cs with
  | nil => rfl
  | cons c t => simp [List.dropWhile_cons, h c (List.mem_cons_self c t)]

theorem pyStrip_id (cs : List Char) (h : ∀ c ∈ cs, c.isWhitespace = false) :
    pyStrip cs = cs := by
  unfold pyStrip
  rw [dropWhile_of_none _ cs h]
  rw [dropWhile_of_none _ cs.reverse (fun c hc => h c (List.mem_reverse.mp hc))]
  exact List.reverse_reverse cs

theorem intChars_mem (x : Int) : ∀ c ∈ intChars x, c = '-' ∨ c ∈ digitChars := by
  intro c hc
  unfold intChars at hc
  by_cases h : x < 0
  · rw [if_pos h] at hc
    rcases List.mem_cons.mp hc with hc | hc
    · exact Or.inl hc
    · exact Or.inr (natChars_mem _ c hc)
  · rw [if_neg h] at hc
    exact Or.inr (natChars_mem _ c hc)

theorem intChars_no_ws (x : Int) : ∀ c ∈ intChars x, c.isWhitespace = false := by
  intro c hc
  rcases intChars_mem x c hc with rfl | hd
  · decide
  · exact (digitChars_props c hd).2.2.2.2.2

theorem py_int_intChars (x : Int) : py_int_chars (intChars x) = some x := by
  simp only [py_int_chars, pyStrip_id (intChars x) (intChars_no_ws x)]
  by_cases h : x < 0
  · have hx : intChars x = '-' :: natChars (-x).toNat := by simp [intChars, h]
    rw [hx]
    simp only [List.head?_cons, List.tail_cons, if_true, if_false]
    rw [parseDigits_natChars]
    simp only [Option.map_some', Option.some.injEq, Int.ofNat_eq_natCast]
    rw [if_neg (show ¬ ('-' : Char) = '+' by decide)]
    simp only [Option.some.injEq]
    omega
  · have hx : intChars x = natChars x.toNat := by simp [intChars, h]
    rw [hx]
    obtain ⟨c, t, hct⟩ := List.exists_cons_of_ne_nil (natChars_ne_nil x.toNat)
    have hcm : c ∈ digitChars := natChars_mem x.toNat c (by rw [hct]; simp)
    have hplus : ¬ (c :: t).head? = some '+' := by
      simp only [List.head?_cons, Option.some.injEq]
      exact (digitChars_props c hcm).2.2.2.1
    have hminus : ¬ (c :: t).head? = some '-' := by
      simp only [List.head?_cons, Option.some.injEq]
      exact (digitChars_props c hcm).2.2.2.2.1
    rw [hct, if_neg hplus, if_neg hminus, ← hct, parseDigits_natChars]
    simp only [Option.map_some', Option.some.injEq, Int.ofNat_eq_natCast]
    omega

/-! ### Lemmas about splitting -/

theorem pySplit_ne_nil (sep : Char) : ∀ cs, pySplit sep cs ≠ [] := by
  intro cs
  cases cs with
  | nil => simp [pySplit]
  | cons c t =>
    by_cases h : c = sep
    · simp [pySplit, h]
    · cases hps : pySplit sep t with
      | nil => simp [pySplit, h, hps]
      | cons p ps => simp [pySplit, h, hps]

theorem pySplit_no_sep (sep : Char) : ∀ cs, sep ∉ cs → pySplit sep cs = [cs] := by
  intro cs
  induction cs with
  | nil => intro _; rfl
  | cons c t ih =>
    intro h
    have hc : ¬ c = sep := fun hE => h (by simp [hE])
    have ht : sep ∉ t := fun hm => h (List.mem_cons_of_mem c hm)
    simp [pySplit, hc, ih ht]

theorem pySplit_append (sep : Char) : ∀ (xs ys : List Char), sep ∉ xs →
    pySplit sep (xs ++ sep :: ys) = xs :: pySplit sep ys := by
  intro xs
  induction xs with
  | nil => intro ys _; simp [pySplit]
  | cons c t ih =>
    intro ys h
    have hc : ¬ c = sep := fun hE => h (by simp [hE])
    have ht : sep ∉ t := fun hm => h (List.mem_cons_of_mem c hm)
    simp [pySplit, hc, ih ys ht]

theorem pySplit_length (sep : Char) : ∀ cs, (pySplit sep cs).length = cs.count sep + 1 := by
  intro cs
  induction cs with
  | nil => simp [pySplit]
  | cons c t ih =>
    by_cases h : c = sep
    · subst h
      simp [pySplit, List.count_cons, ih]
    · cases hps : pySplit sep t with
      | nil => exact absurd hps (pySplit_ne_nil sep t)
      | cons p ps =>
        rw [hps] at ih
        simp [pySplit, h, hps, List.count_cons, Ne.symm h] at ih ⊢
        omega

theorem intChars_no_comma (x : Int) : ',' ∉ intChars x := by
  intro hm
  rcases intChars_mem x ',' hm with h | h
  · exact absurd h (by decide)
  · exact absurd rfl (digitChars_props ',' h).2.1

theorem intChars_no_mark (x : Int) : (intChars x).count '?' = 0 := by
  rw [List.count_eq_zero]
  intro hm
  rcases intChars_mem x '?' hm with h | h
  · exact absurd h (by decide)
  · exact absurd rfl (digitChars_props '?' h).2.2.1

theorem int_fields_repr (a b : Int) :
    int_fields (String.mk (intChars a ++ ',' :: intChars b)) = some [a, b] := by
  unfold int_fields
  rw [show (String.mk (intChars a ++ ',' :: intChars b)).toList
      = intChars a ++ ',' :: intChars b from rfl]
  rw [pySplit_append ',' (intChars a) (intChars b) (intChars_no_comma a)]
  rw [pySplit_no_sep ',' (intChars b) (intChars_no_comma b)]
  simp [py_int_list, py_int_intChars]

theorem parsePair_repr (a b : Int) :
    parsePair (String.mk (intChars a ++ ',' :: intChars b)) = some (a, b) := by
  unfold parsePair
  rw [int_fields_repr]

/-! ### Lemmas about `gen_math_int` -/

theorem randint_mem (a b : Int) (s : Nat) (h : a ≤ b) :
    a ≤ randint a b s ∧ randint a b s ≤ b := by
  unfold randint
  have hm : 0 < b - a + 1 := by omega
  have h1 : 0 ≤ (s : Int) % (b - a + 1) := Int.emod_nonneg _ (by omega)
  have h2 : (s : Int) % (b - a + 1) < b - a + 1 := Int.emod_lt_of_pos _ hm
  omega

theorem randint_exact (a b n : Int) (ha : a ≤ n) (hb : n ≤ b) :
    randint a b (n - a).toNat = n := by
  unfold randint
  have h0 : ((n - a).toNat : Int) = n - a := Int.toNat_of_nonneg (by omega)
  rw [h0, Int.emod_eq_of_lt (by omega) (by omega)]
  omega

theorem is_ok_spec (allOnes n : Int) (h : is_ok allOnes n = true) :
    ¬ n % 10 = 0 ∧ ¬ n = allOnes := by
  simp only [is_ok, beq_iff_eq] at h
  by_cases h1 : n % 10 = 0
  · rw [if_pos h1] at h
    exact absurd h (by decide)
  · rw [if_neg h1] at h
    by_cases h2 : n = allOnes
    · rw [if_pos h2] at h
      exact absurd h (by decide)
    · exact ⟨h1, h2⟩

theorem genLoop_ok (l h allOnes : Int) (seeds : Nat → Nat) :
    ∀ (fuel i : Nat) (n : Int), genLoop l h allOnes seeds fuel i = GenResult.ok n →
      (∃ s : Nat, n = randint l h s) ∧ is_ok allOnes n = true := by
  intro fuel
  induction fuel with
  | zero =>
    intro i n hn
    exact absurd hn (by simp [genLoop])
  | succ f ih =>
    intro i n hn
    simp only [genLoop] at hn
    by_cases hok : is_ok allOnes (randint l h (seeds i)) = true
    · rw [if_pos hok] at hn
      cases hn
      exact ⟨⟨seeds i, rfl⟩, hok⟩
    · rw [if_neg hok] at hn
      exact ih (i + 1) n hn

theorem genLoop_ne_valueError (l h allOnes : Int) (seeds : Nat → Nat) :
    ∀ (fuel i : Nat), genLoop l h allOnes seeds fuel i ≠ GenResult.valueError := by
  intro fuel
  induction fuel with
  | zero =>
    intro i hc
    exact absurd hc (by simp [genLoop])
  | succ f ih =>
    intro i hc
    simp only [genLoop] at hc
    by_cases hok : is_ok allOnes (randint l h (seeds i)) = true
    · rw [if_pos hok] at hc
      cases hc
    · rw [if_neg hok] at hc
      exact ih (i + 1) hc

theorem genLoop_reject (l h allOnes : Int) (seeds : Nat → Nat)
    (hrej : ∀ s : Nat, is_ok allOnes (randint l h s) = false) :
    ∀ (fuel i : Nat), genLoop l h allOnes seeds fuel i = GenResult.diverge := by
  intro fuel
  induction fuel with
  | zero => intro i; rfl
  | succ f ih =>
    intro i
    simp only [genLoop]
    rw [if_neg (by simp [hrej (seeds i)])]
    exact ih (i + 1)

theorem pow10_pred (d : Nat) (hd : 1 ≤ d) : pow10 (d - 1) * 10 = pow10 d := by
  have h2 : d - 1 + 1 = d := by omega
  calc pow10 (d - 1) * 10 = pow10 (d - 1 + 1) := rfl
    _ = pow10 d := by rw [h2]

theorem clampedLow_ge (digits : Nat) (mn : Option Int) :
    pow10 (digits - 1) ≤ clampedLow digits mn := by
  cases mn with
  | none => simp [clampedLow]
  | some m =>
    simp only [clampedLow]
    by_cases h : m > pow10 (digits - 1)
    · rw [if_pos h]; omega
    · rw [if_neg h]

theorem clampedLow_eq_of (digits : Nat) (mn : Option Int)
    (hmn : ∀ m : Int, mn = some m → m ≤ pow10 (digits - 1)) :
    clampedLow digits mn = pow10 (digits - 1) := by
  cases mn with
  | none => simp [clampedLow]
  | some m =>
    have h := hmn m rfl
    simp only [clampedLow]
    rw [if_neg (by omega)]

theorem clampedHigh_le (digits : Nat) (mn mx : Option Int) :
    clampedHigh digits mn mx ≤ clampedLow digits mn * 10 - 1 := by
  cases mx with
  | none => simp [clampedHigh]
  | some m =>
    simp only [clampedHigh]
    by_cases h : m < clampedLow digits mn * 10 - 1
    · rw [if_pos h]; omega
    · rw [if_neg h]

theorem gen_math_int_ok_core (digits : Nat) (mn mx : Option Int) (seeds : Nat → Nat)
    (fuel : Nat) (n : Int) (hd : ¬ digits = 1)
    (hok : gen_math_int digits mn mx seeds fuel = GenResult.ok n) :
    clampedLow digits mn ≤ n ∧ n ≤ clampedHigh digits mn mx ∧
      ¬ n % 10 = 0 ∧ ¬ n = repunit (digits - 1) := by
  simp only [gen_math_int, if_neg hd] at hok
  by_cases hlh : clampedLow digits mn > clampedHigh digits mn mx
  · rw [if_pos hlh] at hok
    cases hok
  · rw [if_neg hlh] at hok
    obtain ⟨⟨s, hs⟩, hisok⟩ := genLoop_ok _ _ _ seeds fuel 0 n hok
    have hb := randint_mem (clampedLow digits mn) (clampedHigh digits mn mx) s (by omega)
    have h3 := is_ok_spec _ _ hisok
    refine ⟨by rw [hs]; exact hb.1, by rw [hs]; exact hb.2, h3.1, h3.2⟩

/-- Claim C2 (amended): every value returned by `gen_math_int` lies in the
clamped interval `[clampedLow, clampedHigh]` — where the code derives the
upper bound from the already-clamped lower bound (`clampedLow * 10 - 1`,
then lowered to `max`), not from `10 ^ digits - 1` — is not divisible by 10
and is not the all-ones value; the value has exactly `digits` digits, i.e.
lies in `[10 ^ (digits - 1), 10 ^ digits - 1]`, whenever `min` is absent or
at most `10 ^ (digits - 1)`; for `digits = 1` the value is in `[2, 9]`; and
`gen_math_int 2` with `max = 29` only returns values in `[10, 29]`. -/
theorem gen_math_int_range (digits : Nat) (mn mx : Option Int) (seeds : Nat → Nat)
    (fuel : Nat) (n : Int)
    (hok : gen_math_int digits mn mx seeds fuel = GenResult.ok n) :
    (digits = 1 → 2 ≤ n ∧ n ≤ 9) ∧
    (2 ≤ digits →
      clampedLow digits mn ≤ n ∧ n ≤ clampedHigh digits mn mx ∧
      ¬ n % 10 = 0 ∧ ¬ n = repunit (digits - 1) ∧
      ((∀ m : Int, mn = some m → m ≤ pow10 (digits - 1)) →
        pow10 (digits - 1) ≤ n ∧ n ≤ pow10 digits - 1)) ∧
    (digits = 2 → mn = none → mx = some 29 → 10 ≤ n ∧ n ≤ 29) := by
  by_cases hd : digits = 1
  · subst hd
    simp only [gen_math_int, if_true, GenResult.ok.injEq] at hok
    have hb := randint_mem 2 9 (seeds 0) (by omega)
    refine ⟨fun _ => ?_, fun h2 => absurd h2 (by omega), fun h2 => absurd h2 (by omega)⟩
    rw [← hok]
    exact hb
  · have hcore := gen_math_int_ok_core digits mn mx seeds fuel n hd hok
    refine ⟨fun h1 => absurd h1 hd, fun h2 => ?_, fun h2 hmn hmx => ?_⟩
    · refine ⟨hcore.1, hcore.2.1, hcore.2.2.1, hcore.2.2.2, fun hmn => ?_⟩
      have hle : clampedLow digits mn = pow10 (digits - 1) := clampedLow_eq_of digits mn hmn
      have hhi := clampedHigh_le digits mn mx
      have hp := pow10_pred digits (by omega)
      constructor
      · have := hcore.1
        omega
      · have := hcore.2.1
        omega
    · subst h2
      subst hmn
      subst hmx
      have hl : clampedLow 2 none = 10 := by decide
      have hh : clampedHigh 2 none (some 29) = 29 := by decide
      have := hcore.1
      have := hcore.2.1
      omega

/-- Claim C2, counterexample to the claim as stated: with `digits = 2` and
`min = 50`, `gen_math_int` can return 499 — outside the claimed interval
`[max(10, 50), min(99, ∞)] = [50, 99]` and with three decimal digits rather
than two — because the code computes the upper bound as
`clamped_low * 10 - 1 = 499`, not as `10 ^ digits - 1 = 99`. -/
theorem gen_math_int_digits_cex :
    gen_math_int 2 (some 50) none (fun _ => 449) 1 = GenResult.ok 499 ∧
      ((99 : Int) < 499) ∧ ((100 : Int) ≤ 499) := by
  refine ⟨by decide, by decide, by decide⟩

/-- Witness for `gen_math_int_range`: a concrete accepted draw. -/
theorem gen_math_int_range_witness :
    clampedLow 2 none ≤ 12 ∧ (12 : Int) ≤ clampedHigh 2 none none ∧
      ¬ (12 : Int) % 10 = 0 ∧ ¬ (12 : Int) = repunit (2 - 1) ∧
      ((∀ m : Int, (none : Option Int) = some m → m ≤ pow10 (2 - 1)) →
        pow10 (2 - 1) ≤ 12 ∧ (12 : Int) ≤ pow10 2 - 1) :=
  (gen_math_int_range 2 none none (fun _ => 2) 1 12 (by decide)).2.1 (by omega)

/-- Claim C3 (amended): for `digits ≥ 2` the generator raises exactly when
the clamped bounds satisfy `low > high`; when `low ≤ high` the loop
terminates as soon as a draw is accepted, and any value of the range that is
neither divisible by 10 nor the all-ones value is reachable as an accepted
first draw — but acceptance of some value in the range is not implied by
`low ≤ high` alone, so the loop can also run forever (see the
counterexample). -/
theorem gen_math_int_termination (digits : Nat) (mn mx : Option Int) (h2 : 2 ≤ digits) :
    (∀ (seeds : Nat → Nat) (fuel : Nat),
        gen_math_int digits mn mx seeds fuel = GenResult.valueError ↔
          clampedHigh digits mn mx < clampedLow digits mn) ∧
    (∀ n : Int, clampedLow digits mn ≤ n → n ≤ clampedHigh digits mn mx →
        is_ok (repunit (digits - 1)) n = true →
        gen_math_int digits mn mx (fun _ => (n - clampedLow digits mn).toNat) 1 =
          GenResult.ok n) := by
  have hd : ¬ digits = 1 := by omega
  constructor
  · intro seeds fuel
    simp only [gen_math_int, if_neg hd]
    by_cases hlh : clampedLow digits mn > clampedHigh digits mn mx
    · rw [if_pos hlh]
      exact ⟨fun _ => by omega, fun _ => rfl⟩
    · rw [if_neg hlh]
      exact ⟨fun hc => absurd hc (genLoop_ne_valueError _ _ _ seeds fuel 0),
        fun hc => absurd hc (by omega)⟩
  · intro n hln hnh hok
    simp only [gen_math_int, if_neg hd]
    rw [if_neg (show ¬ clampedLow digits mn > clampedHigh digits mn mx by omega)]
    simp only [genLoop]
    rw [randint_exact _ _ n hln hnh, if_pos hok]

/-- Claim C3, counterexample to the claim as stated: with `digits = 2`,
`min = max = 10` the clamped bounds satisfy `low = high = 10`, yet every
draw is 10, which is divisible by 10 and so rejected — the loop never
terminates for any seed stream. -/
theorem gen_math_int_nontermination_cex :
    clampedLow 2 (some 10) ≤ clampedHigh 2 (some 10) (some 10) ∧
      ∀ (seeds : Nat → Nat) (fuel : Nat),
        gen_math_int 2 (some 10) (some 10) seeds fuel = GenResult.diverge := by
  refine ⟨by decide, fun seeds fuel => ?_⟩
  have hl : clampedLow 2 (some 10) = 10 := by decide
  have hh : clampedHigh 2 (some 10) (some 10) = 10 := by decide
  simp only [gen_math_int, if_neg (show ¬ (2 : Nat) = 1 by decide), hl, hh]
  rw [if_neg (by omega)]
  apply genLoop_reject
  intro s
  have hr : randint 10 10 s = 10 := by
    unfold randint
    norm_num
  rw [hr]
  decide

/-- Witness for `gen_math_int_termination`: with `digits = 2` and no bounds
the value 12 is accepted on the first draw. -/
theorem gen_math_int_termination_witness :
    gen_math_int 2 none none (fun _ => ((12 : Int) - clampedLow 2 none).toNat) 1 =
      GenResult.ok 12 :=
  (gen_math_int_termination 2 none none (by omega)).2 12 (by decide) (by decide) (by decide)

/-- Claim C10: for `digits = 1` the generator ignores `min` and `max`
entirely: the result equals the unbounded call and always lies in `[2, 9]`;
in particular with `max = 5` it can still return 9. -/
theorem gen_math_int_one_digit :
    (∀ (mn mx : Option Int) (seeds : Nat → Nat) (fuel : Nat),
        gen_math_int 1 mn mx seeds fuel = gen_math_int 1 none none seeds fuel ∧
        ∃ n : Int, gen_math_int 1 mn mx seeds fuel = GenResult.ok n ∧ 2 ≤ n ∧ n ≤ 9) ∧
    gen_math_int 1 none (some 5) (fun _ => 7) 1 = GenResult.ok 9 := by
  refine ⟨fun mn mx seeds fuel => ⟨rfl, randint 2 9 (seeds 0), rfl, ?_, ?_⟩, by decide⟩
  · exact (randint_mem 2 9 (seeds 0) (by omega)).1
  · exact (randint_mem 2 9 (seeds 0) (by omega)).2

/-! ### Checking answers -/

/-- Claim C1: for every stored integer answer and raw input, `check` returns
`Invalid` with message `"<input> is NOT an integer!"` when the input does not
parse as an integer, `Error` with message `"<parsed> is Incorrect!"` when it
parses to a value different from the stored answer, and `Correct` with no
message on a match; in particular for a `TwoXTwoExercise` with operands 16
and 6 the inputs `"96"`, `"abc"` and `"95"` yield the three verdicts. -/
theorem check_verdicts :
    (∀ (answer : Int) (input : String),
      (py_int input = none →
        IntExercise.check answer input =
          (Exercise.Invalid, some (input ++ " is NOT an integer!"))) ∧
      (∀ x : Int, py_int input = some x → ¬ x = answer →
        IntExercise.check answer input =
          (Exercise.Error, some (intStr x ++ " is Incorrect!"))) ∧
      (py_int input = some answer →
        IntExercise.check answer input = (Exercise.Correct, none))) ∧
    IntExercise.check (TwoXTwoExercise.answer ⟨16, 6⟩) "96" = (Exercise.Correct, none) ∧
    IntExercise.check (TwoXTwoExercise.answer ⟨16, 6⟩) "abc" =
      (Exercise.Invalid, some "abc is NOT an integer!") ∧
    IntExercise.check (TwoXTwoExercise.answer ⟨16, 6⟩) "95" =
      (Exercise.Error, some "95 is Incorrect!") := by
  refine ⟨fun answer input => ⟨?_, ?_, ?_⟩, by decide, by decide, by decide⟩
  · intro h
    simp [IntExercise.check, h]
  · intro x hx hne
    simp [IntExercise.check, hx, hne]
  · intro h
    simp [IntExercise.check, h]

/-- Witness for `check_verdicts` at a concrete unparseable input. -/
theorem check_verdicts_witness :
    py_int "xy" = none ∧
      IntExercise.check 5 "xy" = (Exercise.Invalid, some ("xy" ++ " is NOT an integer!")) :=
  ⟨by decide, (check_verdicts.1 5 "xy").1 (by decide)⟩

/-! ### Canonical representations -/

/-- Claim C7: `TwoXTwoExercise` canonicalization round-trips — rebuilding an
exercise from its canonical representation and canonicalizing again yields
the same string. -/
theorem twoXTwo_repr_roundtrip (e : TwoXTwoExercise) :
    (TwoXTwoExercise.fromRepr e.get_repr).map TwoXTwoExercise.get_repr =
      some e.get_repr := by
  have h : TwoXTwoExercise.fromRepr e.get_repr = some ⟨e.a, e.b⟩ := by
    unfold TwoXTwoExercise.fromRepr
    rw [show e.get_repr = String.mk (intChars e.a ++ ',' :: intChars e.b) from rfl]
    rw [parsePair_repr]
    rfl
  rw [h]
  rfl

/-- Claim C4: a `OneXTwoExercise` built from operands `(a, b)` canonicalizes
to exactly `"a,b"`, whichever of the six phrasings was drawn and whether it
was freshly built or reconstructed from a canonical representation; all six
phrasings share one canonical representation. -/
theorem oneXTwo_canonical_invariant :
    (∀ (a b : Int) (k : Fin 6),
        (OneXTwoExercise.make a b k).get_repr =
          String.mk (intChars a ++ ',' :: intChars b)) ∧
    (∀ (a b : Int) (k1 k2 : Fin 6),
        (OneXTwoExercise.make a b k1).get_repr = (OneXTwoExercise.make a b k2).get_repr) ∧
    (∀ (a b : Int) (k1 k2 : Fin 6),
        OneXTwoExercise.fromRepr ((OneXTwoExercise.make a b k1).get_repr) k2 =
          some (OneXTwoExercise.make a b k2)) := by
  refine ⟨fun a b k => rfl, fun a b k1 k2 => rfl, fun a b k1 k2 => ?_⟩
  unfold OneXTwoExercise.fromRepr
  rw [show (OneXTwoExercise.make a b k1).get_repr
      = String.mk (intChars a ++ ',' :: intChars b) from rfl]
  rw [parsePair_repr]
  rfl

/-- Claim C9: every display string of either variant contains exactly one
placeholder marker `?`, so splitting on the marker yields exactly 2 parts. -/
theorem display_single_placeholder :
    (∀ e : TwoXTwoExercise, e.displayChars.count '?' = 1 ∧
        (pySplit '?' e.displayChars).length = 2) ∧
    (∀ (a b : Int) (k : Fin 6), (OneXTwoExercise.make a b k).ex_str.count '?' = 1 ∧
        (pySplit '?' (OneXTwoExercise.make a b k).ex_str).length = 2) := by
  have h2 : ∀ e : TwoXTwoExercise, e.displayChars.count '?' = 1 := by
    intro e
    simp [TwoXTwoExercise.displayChars, List.count_append, intChars_no_mark]
  have hforms : ∀ (a b c : Int), ∀ p ∈ oneXTwoForms a b c, p.1.count '?' = 1 := by
    intro a b c p hp
    simp only [oneXTwoForms, List.mem_cons, List.not_mem_nil, or_false] at hp
    rcases hp with rfl | rfl | rfl | rfl | rfl | rfl <;>
      simp [List.count_append, List.count_cons, List.count_nil, intChars_no_mark]
  have h1 : ∀ (a b : Int) (k : Fin 6), (OneXTwoExercise.make a b k).ex_str.count '?' = 1 := by
    intro a b k
    exact hforms a b (a * b) _ (List.get_mem (oneXTwoForms a b (a * b)) k.val k.isLt)
  exact ⟨fun e => ⟨h2 e, by rw [pySplit_length, h2 e]⟩,
    fun a b k => ⟨h1 a b k, by rw [pySplit_length, h1 a b k]⟩⟩

/-! ### Sessions -/

theorem run_session_props :
    ∀ (calls : List (ExerciseInst × Bool × Int)) (s : ExerciseSession),
      (run_session s calls).count = s.count + calls.length ∧
      (run_session s calls).correct + (run_session s calls).incorrect
        = s.correct + s.incorrect + calls.length ∧
      (run_session s calls).total_time = s.total_time + (calls.map (fun c => c.2.2)).sum ∧
      (run_session s calls).items.length = s.items.length + calls.length := by
  intro calls
  induction calls with
  | nil => intro s; simp [run_session]
  | cons c t ih =>
    intro s
    obtain ⟨h1, h2, h3, h4⟩ := ih (finish_an_exercise s c.1 c.2.1 c.2.2)
    have hrw : run_session s (c :: t) = run_session (finish_an_exercise s c.1 c.2.1 c.2.2) t :=
      rfl
    rw [hrw]
    have hc : (finish_an_exercise s c.1 c.2.1 c.2.2).count = s.count + 1 := rfl
    have hcc : (finish_an_exercise s c.1 c.2.1 c.2.2).correct +
        (finish_an_exercise s c.1 c.2.1 c.2.2).incorrect = s.correct + s.incorrect + 1 := by
      cases hb : c.2.1 <;> simp [finish_an_exercise, hb] <;> omega
    have ht : (finish_an_exercise s c.1 c.2.1 c.2.2).total_time = s.total_time + c.2.2 := rfl
    have hi : (finish_an_exercise s c.1 c.2.1 c.2.2).items.length = s.items.length + 1 := by
      simp [finish_an_exercise]
    refine ⟨?_, ?_, ?_, ?_⟩
    · rw [h1, hc]
      simp only [List.length_cons]
      omega
    · rw [h2, hcc]
      simp only [List.length_cons]
      omega
    · rw [h3, ht]
      simp only [List.map_cons, List.sum_cons]
      omega
    · rw [h4, hi]
      simp only [List.length_cons]
      omega

/-- Claim C5: from the initial session state, after any sequence of
`finish_an_exercise` calls with nonnegative elapsed times, `count` equals
`correct + incorrect`, the counters are nonnegative, `total_time` is the sum
of the elapsed times, and one item record exists per finished exercise; in
particular three finished items (2 correct, 1 incorrect, elapsed
100/200/300 ms) yield `count = 3`, `correct = 2`, `incorrect = 1`,
`total_time = 600`. -/
theorem session_counters :
    (∀ (dd dt : String) (calls : List (ExerciseInst × Bool × Int)),
        (∀ c ∈ calls, 0 ≤ c.2.2) →
        (run_session (ExerciseSession.init dd dt) calls).count =
            (run_session (ExerciseSession.init dd dt) calls).correct +
              (run_session (ExerciseSession.init dd dt) calls).incorrect ∧
          (run_session (ExerciseSession.init dd dt) calls).total_time =
            (calls.map (fun c => c.2.2)).sum ∧
          0 ≤ (run_session (ExerciseSession.init dd dt) calls).total_time ∧
          (run_session (ExerciseSession.init dd dt) calls).items.length =
            (run_session (ExerciseSession.init dd dt) calls).count) ∧
    ((run_session (ExerciseSession.init "." "2024-01-01")
          [(ExerciseInst.twoXTwo ⟨16, 6⟩, true, 100),
           (ExerciseInst.twoXTwo ⟨12, 34⟩, true, 200),
           (ExerciseInst.oneXTwo (OneXTwoExercise.make 3 21 0), false, 300)]).count = 3 ∧
      (run_session (ExerciseSession.init "." "2024-01-01")
          [(ExerciseInst.twoXTwo ⟨16, 6⟩, true, 100),
           (ExerciseInst.twoXTwo ⟨12, 34⟩, true, 200),
           (ExerciseInst.oneXTwo (OneXTwoExercise.make 3 21 0), false, 300)]).correct = 2 ∧
      (run_session (ExerciseSession.init ". " "2024-01-01")
          [(ExerciseInst.twoXTwo ⟨16, 6⟩, true, 100),
           (ExerciseInst.twoXTwo ⟨12, 34⟩, true, 200),
           (ExerciseInst.oneXTwo (OneXTwoExercise.make 3 21 0), false, 300)]).incorrect = 1 ∧
      (run_session (ExerciseSession.init "." "2024-01-01")
          [(ExerciseInst.twoXTwo ⟨16, 6⟩, true, 100),
           (ExerciseInst.twoXTwo ⟨12, 34⟩, true, 200),
           (ExerciseInst.oneXTwo (OneXTwoExercise.make 3 21 0), false, 300)]).total_time
        = 600) := by
  constructor
  · intro dd dt calls hms
    obtain ⟨h1, h2, h3, h4⟩ := run_session_props calls (ExerciseSession.init dd dt)
    have hz1 : (ExerciseSession.init dd dt).count = 0 := rfl
    have hz2 : (ExerciseSession.init dd dt).correct = 0 := rfl
    have hz3 : (ExerciseSession.init dd dt).incorrect = 0 := rfl
    have hz4 : (ExerciseSession.init dd dt).total_time = 0 := rfl
    have hz5 : (ExerciseSession.init dd dt).items.length = 0 := rfl
    have hsum : 0 ≤ (calls.map (fun c => c.2.2)).sum := by
      apply List.sum_nonneg
      intro x hx
      obtain ⟨c, hc, rfl⟩ := List.mem_map.mp hx
      exact hms c hc
    refine ⟨by omega, by omega, by omega, by omega⟩
  · refine ⟨by decide, by decide, by decide, by decide⟩

/-- Witness for `session_counters` on a concrete one-call list. -/
theorem session_counters_witness :
    (∀ c ∈ [(ExerciseInst.twoXTwo ⟨16, 6⟩, true, (100 : Int))], 0 ≤ c.2.2) ∧
      ((run_session (ExerciseSession.init "." "2024-02-02")
            [(ExerciseInst.twoXTwo ⟨16, 6⟩, true, (100 : Int))]).count =
          (run_session (ExerciseSession.init "." "2024-02-02")
            [(ExerciseInst.twoXTwo ⟨16, 6⟩, true, (100 : Int))]).correct +
          (run_session (ExerciseSession.init "." "2024-02-02")
            [(ExerciseInst.twoXTwo ⟨16, 6⟩, true, (100 : Int))]).incorrect ∧
        (run_session (ExerciseSession.init "." "2024-02-02")
            [(ExerciseInst.twoXTwo ⟨16, 6⟩, true, (100 : Int))]).total_time =
          ([(ExerciseInst.twoXTwo ⟨16, 6⟩, true, (100 : Int))].map (fun c => c.2.2)).sum ∧
        0 ≤ (run_session (ExerciseSession.init "." "2024-02-02")
            [(ExerciseInst.twoXTwo ⟨16, 6⟩, true, (100 : Int))]).total_time ∧
        (run_session (ExerciseSession.init "." "2024-02-02")
            [(ExerciseInst.twoXTwo ⟨16, 6⟩, true, (100 : Int))]).items.length =
          (run_session (ExerciseSession.init "." "2024-02-02")
            [(ExerciseInst.twoXTwo ⟨16, 6⟩, true, (100 : Int))]).count) :=
  ⟨by decide, session_counters.1 "." "2024-02-02"
    [(ExerciseInst.twoXTwo ⟨16, 6⟩, true, (100 : Int))] (by decide)⟩

/-- Claim C8: `store_results` on a session with `count = 0` writes nothing —
both log files are left exactly as they were. -/
theorem store_results_noop (s : ExerciseSession) (fs : DataFiles) (h : s.count = 0) :
    store_results s fs = fs := by
  simp [store_results, h]

/-- Witness for `store_results_noop` on a fresh session and absent files. -/
theorem store_results_noop_witness :
    (ExerciseSession.init "." "2024-03-03").count = 0 ∧
      store_results (ExerciseSession.init "." "2024-03-03") ⟨none, none⟩ = ⟨none, none⟩ :=
  ⟨rfl, store_results_noop (ExerciseSession.init "." "2024-03-03") ⟨none, none⟩ rfl⟩

/-! ### Sequential replay generator -/

theorem wrap_mod (j n : Nat) (h : j < n) :
    (if j + 1 ≥ n then 0 else j + 1) = (j + 1) % n := by
  by_cases h2 : j + 1 ≥ n
  · have h3 : j + 1 = n := by omega
    rw [if_pos h2, h3, Nat.mod_self]
  · rw [if_neg h2, Nat.mod_eq_of_lt (by omega)]

theorem get_an_exercise_seq (reprs : List (String × String)) (j : Nat) (k : Fin 6)
    (r : Nat) (p : String × String) (e : ExerciseInst)
    (hj : reprs[j]? = some p) (hce : create_exercise p.1 p.2 k = some e)
    (hjlt : j < reprs.length) :
    ReprExerciseGen.get_an_exercise ⟨reprs, false, j⟩ k r =
      some (e, ⟨reprs, false, (j + 1) % reprs.length⟩) := by
  simp [ReprExerciseGen.get_an_exercise, hj, hce, wrap_mod j reprs.length hjlt]

/-- Claim C6: a sequential `ReprExerciseGen` over a non-empty history of
registered, well-formed entries replays the entries in order, the cursor
wrapping to 0 past the end: the `i`-th call returns an exercise constructed
from the entry at index `i mod n`. -/
theorem repr_gen_sequential_cycle (reprs : List (String × String)) (ks : Nat → Fin 6)
    (rs : Nat → Nat) (hne : reprs ≠ [])
    (hvalid : ∀ p ∈ reprs, ∀ k : Fin 6, (create_exercise p.1 p.2 k).isSome = true) :
    ∀ i : Nat, ∃ e g p,
      runGen ⟨reprs, false, 0⟩ ks rs i = some (e, g) ∧
      reprs[i % reprs.length]? = some p ∧
      create_exercise p.1 p.2 (ks i) = some e ∧
      g = ⟨reprs, false, (i + 1) % reprs.length⟩ := by
  have hlen : 0 < reprs.length := List.length_pos.mpr hne
  intro i
  induction i with
  | zero =>
    obtain ⟨p, hp⟩ : ∃ p, reprs[(0 : Nat)]? = some p := by
      cases hr : reprs[(0 : Nat)]? with
      | none =>
        rw [List.getElem?_eq_none_iff] at hr
        omega
      | some p => exact ⟨p, rfl⟩
    have hpm : p ∈ reprs := List.getElem?_mem hp
    obtain ⟨e, he⟩ := Option.isSome_iff_exists.mp (hvalid p hpm (ks 0))
    refine ⟨e, ⟨reprs, false, (0 + 1) % reprs.length⟩, p, ?_, ?_, he, rfl⟩
    · exact get_an_exercise_seq reprs 0 (ks 0) (rs 0) p e hp he hlen
    · rw [Nat.zero_mod]
      exact hp
  | succ i ih =>
    obtain ⟨e, g, p, hrun, hp, hce, hg⟩ := ih
    have hjlt : (i + 1) % reprs.length < reprs.length := Nat.mod_lt _ hlen
    obtain ⟨p2, hp2⟩ : ∃ q, reprs[(i + 1) % reprs.length]? = some q := by
      cases hr : reprs[(i + 1) % reprs.length]? with
      | none =>
        rw [List.getElem?_eq_none_iff] at hr
        omega
      | some q => exact ⟨q, rfl⟩
    have hpm2 : p2 ∈ reprs := List.getElem?_mem hp2
    obtain ⟨e2, he2⟩ := Option.isSome_iff_exists.mp (hvalid p2 hpm2 (ks (i + 1)))
    refine ⟨e2, ⟨reprs, false, ((i + 1) % reprs.length + 1) % reprs.length⟩, p2,
      ?_, hp2, he2, ?_⟩
    · simp only [runGen, hrun]
      subst hg
      exact get_an_exercise_seq reprs ((i + 1) % reprs.length) (ks (i + 1)) (rs (i + 1))
        p2 e2 hp2 he2 hjlt
    · rw [Nat.mod_add_mod]

/-- Witness for `repr_gen_sequential_cycle`: the fourth call on a three-entry
history wraps to entry 0. -/
theorem repr_gen_sequential_cycle_witness :
    ∃ e g p,
      runGen ⟨[("Int2X2", "16,6"), ("Int2X2", "12,34"), ("Int1X2", "2,20")], false, 0⟩
          (fun _ => 0) (fun _ => 0) 3 = some (e, g) ∧
      [("Int2X2", "16,6"), ("Int2X2", "12,34"), ("Int1X2", "2,20")][
          3 % [("Int2X2", "16,6"), ("Int2X2", "12,34"), ("Int1X2", "2,20")].length]? =
        some p ∧
      create_exercise p.1 p.2 ((fun _ => (0 : Fin 6)) 3) = some e ∧
      g = ⟨[("Int2X2", "16,6"), ("Int2X2", "12,34"), ("Int1X2", "2,20")], false,
        (3 + 1) % [("Int2X2", "16,6"), ("Int2X2", "12,34"), ("Int1X2", "2,20")].length⟩ :=
  repr_gen_sequential_cycle [("Int2X2", "16,6"), ("Int2X2", "12,34"), ("Int1X2", "2,20")]
    (fun _ => 0) (fun _ => 0) (by decide) (by decide) 3

